import Mathlib

/-!
Verification of the Takt task/calendar core (js/task.js): deadline and
importance scoring, someday-task sorting, booking (time-overlap) detection,
timeline building, and recurrence expansion with exceptions and avoid rules.

Dates are modelled as integer day numbers (days since 1970-01-01), the
day-level abstraction of JS Date values truncated to midnight. All Date
comparisons in the source compare midnight-valued dates of a single timezone
(plus an until-date set to 23:59:59.999, which only matters for strictness of
one comparison and is reflected at the day level, see effectiveEnd below), so
day numbers carry exactly the information the source consults.
-/

namespace Takt

/-- Day count of a civil date (year, month 1-12, day 1-31); the standard
civil-calendar conversion underlying JS Date construction. -/
def daysFromCivil (y m d : Int) : Int :=
  let y' := if m ≤ 2 then y - 1 else y
  let era := y' / 400
  let yoe := y' - era * 400
  let mp := (m + 9) % 12
  let doy := (153 * mp + 2) / 5 + d - 1
  let doe := yoe * 365 + yoe / 4 - yoe / 100 + doy
  era * 146097 + doe - 719468

/-- Civil date (year, month 1-12, day 1-31) of a day count; inverse of
daysFromCivil. -/
def civilFromDays (z : Int) : Int × Int × Int :=
  let z' := z + 719468
  let era := z' / 146097
  let doe := z' - era * 146097
  let yoe := (doe - doe / 1460 + doe / 36524 - doe / 146096) / 365
  let y := yoe + era * 400
  let doy := doe - (365 * yoe + yoe / 4 - yoe / 100)
  let mp := (5 * doy + 2) / 153
  let dd := doy - (153 * mp + 2) / 5 + 1
  let mm := mp + (if mp < 10 then 3 else -9)
  (if mm ≤ 2 then y + 1 else y, mm, dd)

/-- JS Date.prototype.getFullYear. -/
def getFullYear (z : Int) : Int := (civilFromDays z).1

/-- JS Date.prototype.getMonth (0-indexed month, 0-11). -/
def getMonth (z : Int) : Int := (civilFromDays z).2.1 - 1

/-- JS Date.prototype.getDate (day of month, 1-31). -/
def getDate (z : Int) : Int := (civilFromDays z).2.2

/-- JS Date.prototype.getDay (weekday, 0 = Sunday); 1970-01-01 was a
Thursday (4). -/
def getDay (z : Int) : Int := (z + 4) % 7

/-- JS "new Date(year, month, day)" with 0-indexed month and full overflow
normalization (month 12 rolls to January of the next year, day 0 is the last
day of the previous month, etc.). -/
def mkDate (y m d : Int) : Int :=
  daysFromCivil (y + m / 12) (m % 12 + 1) 1 + (d - 1)

/-- Source task.js isLeapYear: (year % 4 === 0 && year % 100 !== 0) ||
(year % 400 === 0). -/
def isLeapYear (year : Int) : Bool :=
  (year % 4 == 0 && year % 100 != 0) || (year % 400 == 0)

/-- Source task.js getLastDayOfMonth: new Date(year, month + 1, 0).getDate()
with 0-indexed month. -/
def getLastDayOfMonth (year month : Int) : Int :=
  getDate (mkDate year (month + 1) 0)

/-- JS String(n).padStart(2, '0') for a nonnegative integer. -/
def pad2 (n : Int) : String :=
  let s := toString n
  if s.length < 2 then "0" ++ s else s

/-- Source task.js formatDate: `${y}-${mm}-${dd}` with zero-padded month and
day (the year is not padded). -/
def formatDate (z : Int) : String :=
  let y := getFullYear z
  let m := pad2 (getMonth z + 1)
  let d := pad2 (getDate z)
  toString y ++ "-" ++ m ++ "-" ++ d

/-- A per-date exception override: a partial task record; a present field
wins over the corresponding instance field when the override object is
spread last in addInstance. (An override carrying a recurrence key is outside
this model; the stored shape is a partial task-field object.) -/
structure Override where
  id : Option String := none
  name : Option String := none
  memo : Option String := none
  duration : Option Int := none
  targetDate : Option (Option Int) := none
  targetTime : Option (Option String) := none
  importance : Option String := none
  pinned : Option Bool := none
  isSomeday : Option Bool := none
  scheduledDate : Option (Option String) := none
  scheduledTime : Option (Option String) := none
  bookingApproved : Option Bool := none
  createdAt : Option String := none
  updatedAt : Option String := none
  isInstance : Option Bool := none
  originalTaskId : Option (Option String) := none
  deriving Repr, DecidableEq

/-- Value of one recurrence exception entry: the literal "deleted" marker or
a partial-override object. -/
inductive ExceptionValue where
  | deleted : ExceptionValue
  | override : Override → ExceptionValue
  deriving Repr, DecidableEq

/-- Recurrence rule, as stored on a task. The type field is a string tag as
in the source ('none' / 'daily' / 'weekly' / 'monthly' / 'yearly'; anything
else expands to nothing). exceptions models the JS object as an association
list keyed by YYYY-MM-DD strings (r.exceptions || {} means a missing map
behaves as the empty list). -/
structure Recurrence where
  type : String
  -- source field name is "until"; that word is a reserved keyword in Lean
  untilDate : Option Int := none
  excludeDays : Option (List Int) := none
  daysOfWeek : Option (List Int) := none
  dayOfMonth : Int := 1
  month : Int := 1
  avoidDays : Option (List Int) := none
  avoidDirection : String := "after"
  exceptions : List (String × ExceptionValue) := []
  deriving Repr, DecidableEq

/-- Task record; field defaults mirror createTask in task.js (id and the
timestamps are caller-supplied there: crypto.randomUUID() and
toISOString()). isInstance and originalTaskId are absent on templates and
added by addInstance; absent is modelled as false / none. -/
structure Task where
  id : String := ""
  name : String := ""
  memo : String := ""
  duration : Int := 30
  targetDate : Option Int := none
  targetTime : Option String := none
  importance : String := "mid"
  pinned : Bool := false
  isSomeday : Bool := true
  recurrence : Option Recurrence := none
  scheduledDate : Option String := none
  scheduledTime : Option String := none
  bookingApproved : Bool := false
  createdAt : String := ""
  updatedAt : String := ""
  isInstance : Bool := false
  originalTaskId : Option String := none
  deriving Repr, DecidableEq

/-!
Scoring (task.js lines 28-59). The source reads "today" from the ambient
clock (new Date() truncated to midnight); it is passed here as an explicit
trailing Date parameter. diff = Math.round((target - today) / 86400000) on
two midnight-truncated dates is exactly day-number subtraction.
-/

/-- Source deadlineScore(task, n1 = 8, n2 = 3): 1 when no targetDate, else
6/5/4/3/2 by the day difference from today. -/
def deadlineScore (task : Task) (n1 n2 : Int) (today : Int) : Int :=
  match task.targetDate with
  | none => 1
  | some target =>
    let diff := target - today
    if diff < 0 then 6
    else if diff = 0 then 5
    else if diff = 1 then 4
    else if diff < n1 then 3
    else 2

/-- Source importanceScore: IMPORTANCE_MAP[task.importance] || 2 with
low → 1, mid → 2, high → 3. -/
def importanceScore (task : Task) : Int :=
  if task.importance = "low" then 1
  else if task.importance = "mid" then 2
  else if task.importance = "high" then 3
  else 2

/-- Source totalScore: deadlineScore * importanceScore. -/
def totalScore (task : Task) (n1 n2 : Int) (today : Int) : Int :=
  deadlineScore task n1 n2 today * importanceScore task

/-- The comparator passed to Array.prototype.sort in sortSomedayTasks:
pinned difference dominates, then descending totalScore. -/
def somedayCmp (n1 n2 : Int) (today : Int) (a b : Task) : Int :=
  if a.pinned ≠ b.pinned then (if b.pinned then 1 else -1)
  else totalScore b n1 n2 today - totalScore a n1 n2 today

/-- Source sortSomedayTasks: [...tasks].sort(comparator). Array.prototype
.sort is a stable sort (ES2019); with the consistent comparator somedayCmp
the stable sorted result is unique, modelled by insertion sort on the
non-strict comparator order. -/
def sortSomedayTasks (tasks : List Task) (n1 n2 : Int) (today : Int) : List Task :=
  tasks.insertionSort (fun a b => somedayCmp n1 n2 today a b ≤ 0)

/-!
Booking detection and timeline building (task.js lines 88-141).
-/

/-- JS String.prototype.split(':'), done structurally on the character
list so that concrete computations reduce. -/
def splitOnColon : List Char → List String
  | [] => [""]
  | c :: cs =>
    let rest := splitOnColon cs
    if c = ':' then "" :: rest
    else
      match rest with
      | [] => [String.mk [c]]
      | r :: rs => String.mk (c :: r.data) :: rs

/-- Decimal value of an all-digit character list (JS Number() on a
well-formed digit string). -/
def parseNatChars : List Char → Nat → Option Nat
  | [], acc => some acc
  | c :: cs, acc =>
    if '0' ≤ c ∧ c ≤ '9' then parseNatChars cs (acc * 10 + (c.toNat - '0'.toNat))
    else none

/-- Source timeToMin: split on ':', Number each part, h * 60 + m. Only
well-formed "HH:MM" strings arise from the callers; an unparsable part is
modelled as 0 (in JS it would be NaN, poisoning every comparison). -/
def timeToMin (timeStr : String) : Int :=
  let parts := splitOnColon timeStr.data
  let h := ((parseNatChars (parts.getD 0 "").data 0).getD 0 : Int)
  let m := ((parseNatChars (parts.getD 1 "").data 0).getD 0 : Int)
  h * 60 + m

/-- Source minToTime: `${h}:${String(m).padStart(2, '0')}` — the minutes are
zero-padded but the hours are NOT. -/
def minToTime (min : Int) : String :=
  let h := min / 60
  let m := min % 60
  toString h ++ ":" ++ pad2 m

/-- Source isBooking: false when either scheduledTime is null, else half-open
minute-interval intersection startA < endB && startB < endA. -/
def isBooking (taskA taskB : Task) : Bool :=
  match taskA.scheduledTime, taskB.scheduledTime with
  | some ta, some tb =>
    let startA := timeToMin ta
    let endA := startA + taskA.duration
    let startB := timeToMin tb
    let endB := startB + taskB.duration
    startA < endB && startB < endA
  | _, _ => false

/-- Timeline entry: tagged union {type:'task', task} / {type:'empty', time,
duration} from buildTimeline. -/
inductive TimelineEntry where
  | task : Task → TimelineEntry
  | empty : String → Int → TimelineEntry
  deriving Repr, DecidableEq

/-- Start minute of a task on the timeline; buildTimeline is only called on
tasks with non-null scheduledTime (getScheduledForDate filters on it), a null
would throw in the source. -/
def schedMin (t : Task) : Int := timeToMin (t.scheduledTime.getD "")

/-- Loop body of buildTimeline for the current task a followed by rest: emit
the task entry, then, unless a is last, the gap entry when the next start is
strictly after a's end. -/
def buildTimelineGo (a : Task) : List Task → List TimelineEntry
  | [] => [.task a]
  | b :: rest =>
    let endA := schedMin a + a.duration
    let startB := schedMin b
    .task a ::
      ((if startB > endA then [.empty (minToTime endA) (startB - endA)] else []) ++
        buildTimelineGo b rest)

/-- Source buildTimeline: walk the time-sorted list, one task entry per task
and an empty entry per positive gap between consecutive tasks. -/
def buildTimeline (tasks : List Task) : List TimelineEntry :=
  match tasks with
  | [] => []
  | a :: rest => buildTimelineGo a rest

/-!
Recurrence expansion (task.js lines 150-331).
-/

/-- The while loop inside applyAvoidRules: shift by one day in the given
direction while the weekday is in avoidDays, for at most the given number of
iterations (the source counts loops upward against the cap 30; fuel counts
down from 30). -/
def avoidLoop (avoidDays : List Int) (direction : String) : Nat → Int → Int
  | 0, d => d
  | fuel + 1, d =>
    if getDay d ∈ avoidDays then
      avoidLoop avoidDays direction fuel (if direction = "before" then d - 1 else d + 1)
    else d

/-- Source applyAvoidRules: null or empty avoidDays returns the date
unchanged; otherwise run the bounded shifting loop (cap 30). -/
def applyAvoidRules (date : Int) (avoidDays : Option (List Int)) (direction : String) : Int :=
  match avoidDays with
  | none => date
  | some l => if l.length = 0 then date else avoidLoop l direction 30 date

/-- The plain instance built by addInstance: the template with the
instance-identity fields set (id = templateId ++ "_" ++ dateStr,
originalTaskId, scheduledDate, isInstance = true, recurrence = null). -/
def baseInstance (template : Task) (dateStr : String) : Task :=
  { template with
    id := template.id ++ "_" ++ dateStr
    originalTaskId := some template.id
    scheduledDate := some dateStr
    isInstance := true
    recurrence := none }

/-- The trailing "...ex" spread in addInstance: every field present on the
override object replaces the corresponding field of the already-built
instance (so an override can also overwrite the identity fields). -/
def applyOverride (base : Task) (ov : Override) : Task :=
  { id := ov.id.getD base.id
    name := ov.name.getD base.name
    memo := ov.memo.getD base.memo
    duration := ov.duration.getD base.duration
    targetDate := ov.targetDate.getD base.targetDate
    targetTime := ov.targetTime.getD base.targetTime
    importance := ov.importance.getD base.importance
    pinned := ov.pinned.getD base.pinned
    isSomeday := ov.isSomeday.getD base.isSomeday
    recurrence := base.recurrence
    scheduledDate := ov.scheduledDate.getD base.scheduledDate
    scheduledTime := ov.scheduledTime.getD base.scheduledTime
    bookingApproved := ov.bookingApproved.getD base.bookingApproved
    createdAt := ov.createdAt.getD base.createdAt
    updatedAt := ov.updatedAt.getD base.updatedAt
    isInstance := ov.isInstance.getD base.isInstance
    originalTaskId := ov.originalTaskId.getD base.originalTaskId }

/-- Source addInstance(template, dateObj, exceptions, list): look up the
formatted date in the exceptions map; 'deleted' contributes nothing, an
override object contributes the overlaid instance, no entry contributes the
plain instance. The source pushes onto a result array; the contribution is
returned here as a list of zero or one task. -/
def addInstance (template : Task) (exceptions : List (String × ExceptionValue))
    (dateObj : Int) : List Task :=
  let dateStr := formatDate dateObj
  match exceptions.lookup dateStr with
  | some .deleted => []
  | some (.override ov) => [applyOverride (baseInstance template dateStr) ov]
  | none => [baseInstance template dateStr]

/-- Daily while loop: visit every day d from the current one through effEnd,
emitting via addInstance when the weekday is not excluded. fuel bounds the
iteration count (chosen as the exact day span by the caller). -/
def dailyLoop (task : Task) (exceptions : List (String × ExceptionValue))
    (excludeDays : Option (List Int)) (effEnd : Int) : Nat → Int → List Task
  | 0, _ => []
  | fuel + 1, d =>
    if d ≤ effEnd then
      (match excludeDays with
        | none => addInstance task exceptions d
        | some ex => if getDay d ∈ ex then [] else addInstance task exceptions d) ++
        dailyLoop task exceptions excludeDays effEnd fuel (d + 1)
    else []

/-- Weekly while loop: visit every day, emitting only when the weekday is in
daysOfWeek (a missing daysOfWeek emits nothing). -/
def weeklyLoop (task : Task) (exceptions : List (String × ExceptionValue))
    (daysOfWeek : Option (List Int)) (effEnd : Int) : Nat → Int → List Task
  | 0, _ => []
  | fuel + 1, d =>
    if d ≤ effEnd then
      (match daysOfWeek with
        | none => []
        | some dw => if getDay d ∈ dw then addInstance task exceptions d else []) ++
        weeklyLoop task exceptions daysOfWeek effEnd fuel (d + 1)
    else []

/-- Monthly while loop: d is the first day of the current month; clamp the
target day to the month length, apply avoid rules, emit when the shifted
date is inside [startDate, effEnd], then step to the first of the next month
(setMonth(getMonth() + 1)). -/
def monthlyLoop (task : Task) (r : Recurrence) (targetDay : Int)
    (startDate effEnd : Int) : Nat → Int → List Task
  | 0, _ => []
  | fuel + 1, d =>
    if d ≤ effEnd then
      let year := getFullYear d
      let month := getMonth d
      let lastDay := getLastDayOfMonth year month
      let actualDay := min targetDay lastDay
      let checkDate := mkDate year month actualDay
      let finalDate := applyAvoidRules checkDate r.avoidDays r.avoidDirection
      (if startDate ≤ finalDate ∧ finalDate ≤ effEnd then
          addInstance task r.exceptions finalDate
        else []) ++
        monthlyLoop task r targetDay startDate effEnd fuel (mkDate year (month + 1) 1)
    else []

/-- Yearly for loop over the years from startDate's through effEnd's: clamp
Feb 29 to Feb 28 off leap years, apply avoid rules, emit when in range. -/
def yearlyBody (task : Task) (r : Recurrence) (targetMonth targetDay : Int)
    (startDate effEnd : Int) (year : Int) : List Task :=
  let actualDay :=
    if targetMonth = 1 ∧ targetDay = 29 ∧ ¬ isLeapYear year then 28 else targetDay
  let checkDate := mkDate year targetMonth actualDay
  let finalDate := applyAvoidRules checkDate r.avoidDays r.avoidDirection
  if startDate ≤ finalDate ∧ finalDate ≤ effEnd then addInstance task r.exceptions finalDate
  else []

/-- Effective end of expansion for one rule: min of the view end and the
rule's until date. In the source untilDate is set to 23:59:59.999 and
compared against the view end at midnight; at day granularity that
comparison is strict day inequality, and every later "d <= effectiveEnd"
comparison is day inequality as well. -/
def effectiveEnd (r : Recurrence) (viewEnd : Int) : Int :=
  match r.untilDate with
  | none => viewEnd
  | some u => if u < viewEnd then u else viewEnd

/-- Expansion of a single task (the forEach body of expandRecurringTasks):
non-recurring tasks pass through; a rule whose effective end precedes the
window start, or whose type is unrecognized, produces nothing. -/
def expandOne (startDate viewEnd : Int) (task : Task) : List Task :=
  match task.recurrence with
  | none => [task]
  | some r =>
    if r.type = "none" then [task]
    else
      let effEnd := effectiveEnd r viewEnd
      if effEnd < startDate then []
      else if r.type = "daily" then
        dailyLoop task r.exceptions r.excludeDays effEnd
          (effEnd - startDate + 1).toNat startDate
      else if r.type = "weekly" then
        weeklyLoop task r.exceptions r.daysOfWeek effEnd
          (effEnd - startDate + 1).toNat startDate
      else if r.type = "monthly" then
        let targetDay := r.dayOfMonth
        let d1 := mkDate (getFullYear startDate) (getMonth startDate) 1
        monthlyLoop task r targetDay startDate effEnd
          (effEnd - d1 + 1).toNat d1
      else if r.type = "yearly" then
        let targetMonth := r.month - 1
        let targetDay := r.dayOfMonth
        let y := getFullYear startDate
        let endY := getFullYear effEnd
        (List.range (endY - y + 1).toNat).flatMap
          (fun i => yearlyBody task r targetMonth targetDay startDate effEnd (y + i))
      else []

/-- Source expandRecurringTasks(tasks, startStr, endStr): forEach over the
input pushing into one result array, i.e. the concatenation of each task's
expansion in input order. The YYYY-MM-DD window strings are parsed to Date
objects on entry; the parsed day numbers are taken as arguments here. -/
def expandRecurringTasks (tasks : List Task) (startDate viewEnd : Int) : List Task :=
  tasks.flatMap (expandOne startDate viewEnd)

/-!
Occurrence-date instrumentation: the list of dates at which the expansion
loops invoke addInstance, used to reason about the emitted instances
uniformly. Each variant replays the corresponding loop, recording the date
passed to addInstance instead of the instance contribution.
-/

/-- Day-walking loops (daily and weekly) as the list of visited days that
pass the emission predicate. -/
def walkDates (p : Int → Bool) (effEnd : Int) : Nat → Int → List Int
  | 0, _ => []
  | fuel + 1, d =>
    if d ≤ effEnd then
      (if p d then [d] else []) ++ walkDates p effEnd fuel (d + 1)
    else []

/-- Emission predicate of the daily loop: weekday not in excludeDays. -/
def dailyKeep (excludeDays : Option (List Int)) (d : Int) : Bool :=
  match excludeDays with
  | none => true
  | some ex => !(getDay d ∈ ex : Bool)

/-- Emission predicate of the weekly loop: weekday in daysOfWeek. -/
def weeklyKeep (daysOfWeek : Option (List Int)) (d : Int) : Bool :=
  match daysOfWeek with
  | none => false
  | some dw => (getDay d ∈ dw : Bool)

/-- Monthly loop dates: the shifted candidate of each visited month when it
lies inside the window. -/
def monthlyDates (r : Recurrence) (targetDay startDate effEnd : Int) :
    Nat → Int → List Int
  | 0, _ => []
  | fuel + 1, d =>
    if d ≤ effEnd then
      let year := getFullYear d
      let month := getMonth d
      let lastDay := getLastDayOfMonth year month
      let actualDay := min targetDay lastDay
      let checkDate := mkDate year month actualDay
      let finalDate := applyAvoidRules checkDate r.avoidDays r.avoidDirection
      (if startDate ≤ finalDate ∧ finalDate ≤ effEnd then [finalDate] else []) ++
        monthlyDates r targetDay startDate effEnd fuel (mkDate year (month + 1) 1)
    else []

/-- Yearly loop dates. -/
def yearlyDates (r : Recurrence) (targetMonth targetDay startDate effEnd : Int)
    (year : Int) : List Int :=
  let actualDay :=
    if targetMonth = 1 ∧ targetDay = 29 ∧ ¬ isLeapYear year then 28 else targetDay
  let checkDate := mkDate year targetMonth actualDay
  let finalDate := applyAvoidRules checkDate r.avoidDays r.avoidDirection
  if startDate ≤ finalDate ∧ finalDate ≤ effEnd then [finalDate] else []

/-- All dates at which expandOne invokes addInstance for a recurring rule
(empty for type 'none' and for unrecognized types). -/
def occDates (r : Recurrence) (startDate viewEnd : Int) : List Int :=
  if r.type = "none" then []
  else
    let effEnd := effectiveEnd r viewEnd
    if effEnd < startDate then []
    else if r.type = "daily" then
      walkDates (dailyKeep r.excludeDays) effEnd (effEnd - startDate + 1).toNat startDate
    else if r.type = "weekly" then
      walkDates (weeklyKeep r.daysOfWeek) effEnd (effEnd - startDate + 1).toNat startDate
    else if r.type = "monthly" then
      let d1 := mkDate (getFullYear startDate) (getMonth startDate) 1
      monthlyDates r r.dayOfMonth startDate effEnd (effEnd - d1 + 1).toNat d1
    else if r.type = "yearly" then
      let y := getFullYear startDate
      (List.range ((getFullYear effEnd) - y + 1).toNat).flatMap
        (fun i => yearlyDates r (r.month - 1) r.dayOfMonth startDate effEnd (y + i))
    else []

theorem dailyLoop_eq_flatMap (task : Task) (E : List (String × ExceptionValue))
    (excl : Option (List Int)) (effEnd : Int) :
    ∀ (fuel : Nat) (d : Int),
      dailyLoop task E excl effEnd fuel d =
        (walkDates (dailyKeep excl) effEnd fuel d).flatMap (addInstance task E) := by
  intro fuel
  induction fuel with
  | zero => intro d; rfl
  | succ n ih =>
    intro d
    simp only [dailyLoop, walkDates]
    split
    · rw [List.flatMap_append, ih]
      cases excl with
      | none => simp [dailyKeep]
      | some ex =>
        by_cases hmem : getDay d ∈ ex <;> simp [dailyKeep, hmem]
    · simp

theorem weeklyLoop_eq_flatMap (task : Task) (E : List (String × ExceptionValue))
    (dow : Option (List Int)) (effEnd : Int) :
    ∀ (fuel : Nat) (d : Int),
      weeklyLoop task E dow effEnd fuel d =
        (walkDates (weeklyKeep dow) effEnd fuel d).flatMap (addInstance task E) := by
  intro fuel
  induction fuel with
  | zero => intro d; rfl
  | succ n ih =>
    intro d
    simp only [weeklyLoop, walkDates]
    split
    · rw [List.flatMap_append, ih]
      cases dow with
      | none => simp [weeklyKeep]
      | some dw =>
        by_cases hmem : getDay d ∈ dw <;> simp [weeklyKeep, hmem]
    · simp

theorem monthlyLoop_eq_flatMap (task : Task) (r : Recurrence)
    (targetDay startDate effEnd : Int) :
    ∀ (fuel : Nat) (d : Int),
      monthlyLoop task r targetDay startDate effEnd fuel d =
        (monthlyDates r targetDay startDate effEnd fuel d).flatMap
          (addInstance task r.exceptions) := by
  intro fuel
  induction fuel with
  | zero => intro d; rfl
  | succ n ih =>
    intro d
    simp only [monthlyLoop, monthlyDates]
    split
    · rw [List.flatMap_append, ih]
      split <;> simp
    · simp

theorem yearlyBody_eq_flatMap (task : Task) (r : Recurrence)
    (targetMonth targetDay startDate effEnd : Int) (year : Int) :
    yearlyBody task r targetMonth targetDay startDate effEnd year =
      (yearlyDates r targetMonth targetDay startDate effEnd year).flatMap
        (addInstance task r.exceptions) := by
  simp only [yearlyBody, yearlyDates]
  split <;> (split <;> simp)

/-- Every instance expandOne emits for a recurring rule comes from
addInstance at one of the rule's occurrence dates, in loop order. -/
theorem expandOne_eq_flatMap (task : Task) (r : Recurrence) (startDate viewEnd : Int)
    (hrec : task.recurrence = some r) (hne : r.type ≠ "none") :
    expandOne startDate viewEnd task =
      (occDates r startDate viewEnd).flatMap (addInstance task r.exceptions) := by
  unfold expandOne occDates
  rw [hrec]
  simp only [hne, if_false]
  by_cases hend : effectiveEnd r viewEnd < startDate
  · simp [hend]
  · simp only [hend, if_false]
    by_cases h1 : r.type = "daily"
    · simp only [h1, if_true, dailyLoop_eq_flatMap]
    · simp only [h1, if_false]
      by_cases h2 : r.type = "weekly"
      · simp only [h2, if_true, weeklyLoop_eq_flatMap]
      · simp only [h2, if_false]
        by_cases h3 : r.type = "monthly"
        · simp only [h3, if_true, monthlyLoop_eq_flatMap]
        · simp only [h3, if_false]
          by_cases h4 : r.type = "yearly"
          · simp only [h4, if_true]
            rw [List.flatMap_assoc]
            simp only [yearlyBody_eq_flatMap]
          · simp [h4]

/-!
Claim theorems. Window day numbers used in concrete statements:
2024-01-01 = 19723, 2024-01-02 = 19724, 2024-04-30 = 19843.
-/

/-- C1: a monthly rule with dayOfMonth = 31, no avoidDays, no exceptions
(and no until bound) expanded over [2024-01-01, 2024-04-30] emits exactly
four instances, dated 2024-01-31, 2024-02-29, 2024-03-31 and 2024-04-30:
each month's day is min(dayOfMonth, daysInMonth), clamping day 31 to the
month's last day including the leap Feb 29. -/
theorem c1_monthly_day31_clamps (task : Task) (r : Recurrence)
    (hrec : task.recurrence = some r) (htype : r.type = "monthly")
    (hday : r.dayOfMonth = 31) (havoid : r.avoidDays = none)
    (hex : r.exceptions = []) (huntil : r.untilDate = none) :
    (expandRecurringTasks [task] 19723 19843).map (·.scheduledDate) =
      [some "2024-01-31", some "2024-02-29", some "2024-03-31", some "2024-04-30"] := by
  obtain ⟨ty, un, excl, dow, dom, mon, av, dir, ex⟩ := r
  simp only at htype hday havoid hex huntil
  subst htype hday havoid hex huntil
  simp only [expandRecurringTasks, List.flatMap_cons, List.flatMap_nil, List.append_nil]
  unfold expandOne
  rw [hrec]
  rfl

/-- C1 witness: the theorem instantiated at a concrete monthly template. -/
theorem c1_witness :
    (expandRecurringTasks
        [{ id := "T", recurrence := some { type := "monthly", dayOfMonth := 31 } }]
        19723 19843).map (·.scheduledDate) =
      [some "2024-01-31", some "2024-02-29", some "2024-03-31", some "2024-04-30"] :=
  c1_monthly_day31_clamps
    { id := "T", recurrence := some { type := "monthly", dayOfMonth := 31 } }
    { type := "monthly", dayOfMonth := 31 } rfl rfl rfl rfl rfl rfl

/-- C2 counterexample: the claim says every emitted instance has
isInstance = true even when an override exception applies, but the override
object is spread last in addInstance, so an override that itself carries an
identity field wins: a daily rule over the one-day window 2024-01-01 with
the exception override setting isInstance to false emits an instance whose
isInstance is false. -/
theorem c2_override_identity_cex :
    (expandRecurringTasks
        [{ id := "T"
           recurrence := some
             { type := "daily"
               exceptions := [("2024-01-01", .override { isInstance := some false })] } }]
        19723 19723).map (·.isInstance) = [false] := by
  decide

/-- C2 amended: every instance emitted by addInstance (the single emission
point of expandRecurringTasks) carries the instance-identity fields
(isInstance = true, recurrence = null, originalTaskId = template id,
id = template id + "_" + date string, scheduledDate = the occurrence date
string) provided the override exception applying to that date, if any, does
not itself set an identity field; the override's fields win on every other
overlapping field. -/
theorem c2_instance_identity_fields (template : Task)
    (E : List (String × ExceptionValue)) (od : Int) (inst : Task)
    (hmem : inst ∈ addInstance template E od)
    (hov : ∀ ov, E.lookup (formatDate od) = some (.override ov) →
      ov.id = none ∧ ov.originalTaskId = none ∧ ov.scheduledDate = none ∧
        ov.isInstance = none) :
    (inst.isInstance = true ∧ inst.recurrence = none ∧
      inst.originalTaskId = some template.id ∧
      inst.id = template.id ++ "_" ++ formatDate od ∧
      inst.scheduledDate = some (formatDate od)) ∧
    ∀ ov, E.lookup (formatDate od) = some (.override ov) →
      inst.name = ov.name.getD template.name ∧
      inst.memo = ov.memo.getD template.memo ∧
      inst.duration = ov.duration.getD template.duration ∧
      inst.targetDate = ov.targetDate.getD template.targetDate ∧
      inst.targetTime = ov.targetTime.getD template.targetTime ∧
      inst.importance = ov.importance.getD template.importance ∧
      inst.pinned = ov.pinned.getD template.pinned ∧
      inst.isSomeday = ov.isSomeday.getD template.isSomeday ∧
      inst.scheduledTime = ov.scheduledTime.getD template.scheduledTime ∧
      inst.bookingApproved = ov.bookingApproved.getD template.bookingApproved ∧
      inst.createdAt = ov.createdAt.getD template.createdAt ∧
      inst.updatedAt = ov.updatedAt.getD template.updatedAt := by
  simp only [addInstance] at hmem
  cases hlook : E.lookup (formatDate od) with
  | none =>
    rw [hlook] at hmem
    simp only [List.mem_singleton] at hmem
    subst hmem
    simp [baseInstance]
  | some v =>
    rw [hlook] at hmem
    cases v with
    | deleted => simp at hmem
    | override ov =>
      simp only [List.mem_singleton] at hmem
      subst hmem
      obtain ⟨h1, h2, h3, h4⟩ := hov ov hlook
      constructor
      · simp [applyOverride, baseInstance, h1, h2, h3, h4]
      · intro ov' hov'
        obtain rfl : ov = ov' := by
          injection hov' with h
          injection h
        simp [applyOverride, baseInstance]

/-- C2 witness: a no-exception emission keeps isInstance = true. -/
theorem c2_witness :
    (baseInstance { id := "T" } (formatDate 19723)).isInstance = true :=
  (c2_instance_identity_fields { id := "T" } [] 19723
    (baseInstance { id := "T" } (formatDate 19723))
    (by decide) (by intro ov h; cases h)).1.1

/-- Removing every entry with a given key from an exception map leaves every
lookup at a different key unchanged. -/
theorem lookup_filter_ne (k : String) :
    ∀ (E : List (String × ExceptionValue)) (k' : String), k' ≠ k →
      (E.filter (fun p => p.1 != k)).lookup k' = E.lookup k' := by
  intro E
  induction E with
  | nil => intro k' _; rfl
  | cons a rest ih =>
    obtain ⟨ka, v⟩ := a
    intro k' hne
    by_cases hka : ka = k
    · subst hka
      have hne' : (k' == ka) = false := beq_false_of_ne hne
      simp [List.filter_cons, List.lookup, hne', ih k' hne]
    · have hkeep : (ka != k) = true := by simp [hka]
      by_cases hk' : k' = ka
      · simp [List.filter_cons, List.lookup, hkeep, hk']
      · have hne' : (k' == ka) = false := beq_false_of_ne hk'
        simp [List.filter_cons, List.lookup, hkeep, hne', ih k' hne]

/-- The C3 concrete template: monthly on day 31 with the 2024-01-31
occurrence deleted. -/
def c3Task : Task :=
  { id := "T"
    recurrence := some
      { type := "monthly", dayOfMonth := 31
        exceptions := [("2024-01-31", .deleted)] } }

/-- C3: a 'deleted' exception at an occurrence date suppresses exactly that
occurrence: the emission at that date is empty; emissions at every other
occurrence date coincide with those of the rule with the exception entry
removed (expandOne being the flatMap of addInstance over the rule's
occurrence dates); and concretely the exception 2024-01-31 -> deleted on the
monthly dayOfMonth = 31 rule over [2024-01-01, 2024-04-30] leaves exactly
the 2024-02-29, 2024-03-31 and 2024-04-30 instances. -/
theorem c3_deleted_exception (template : Task) (E : List (String × ExceptionValue))
    (od : Int) (hdel : E.lookup (formatDate od) = some .deleted) :
    addInstance template E od = [] ∧
    (∀ od', formatDate od' ≠ formatDate od →
      addInstance template E od' =
        addInstance template (E.filter (fun p => p.1 != formatDate od)) od') ∧
    (∀ (task : Task) (r : Recurrence) (s e : Int),
      task.recurrence = some r → r.type ≠ "none" →
        expandOne s e task = (occDates r s e).flatMap (addInstance task r.exceptions)) ∧
    (expandRecurringTasks [c3Task] 19723 19843).map (·.scheduledDate) =
      [some "2024-02-29", some "2024-03-31", some "2024-04-30"] := by
  refine ⟨?_, ?_, ?_, ?_⟩
  · simp [addInstance, hdel]
  · intro od' hne
    simp only [addInstance]
    rw [lookup_filter_ne (formatDate od) E (formatDate od') hne]
  · intro task r s e hrec hne
    exact expandOne_eq_flatMap task r s e hrec hne
  · decide

/-- C3 witness: a deleted entry at the looked-up date emits nothing. -/
theorem c3_witness :
    addInstance { id := "T" }
      [("2024-01-01", ExceptionValue.deleted)] 19723 = [] :=
  (c3_deleted_exception { id := "T" } [("2024-01-01", .deleted)] 19723 (by decide)).1


/-- The avoid loop only ever shifts whole days in its direction, at most
fuel many. -/
theorem avoidLoop_shift (l : List Int) (dir : String) :
    ∀ (fuel : Nat) (d : Int), ∃ n : Nat, n ≤ fuel ∧
      avoidLoop l dir fuel d = (if dir = "before" then d - n else d + n) := by
  intro fuel
  induction fuel with
  | zero =>
    intro d
    refine ⟨0, le_refl 0, ?_⟩
    split <;> simp [avoidLoop]
  | succ m ih =>
    intro d
    by_cases hmem : getDay d ∈ l
    · obtain ⟨n, hn, heq⟩ := ih (if dir = "before" then d - 1 else d + 1)
      refine ⟨n + 1, by omega, ?_⟩
      rw [avoidLoop, if_pos hmem, heq]
      split <;> push_cast <;> ring_nf
    · refine ⟨0, by omega, ?_⟩
      rw [avoidLoop, if_neg hmem]
      split <;> simp

/-- If some reachable shift within the fuel bound leaves the avoid set, the
loop's result is outside the avoid set (the loop stops at the first such
day). -/
theorem avoidLoop_escape (l : List Int) (dir : String) :
    ∀ (fuel : Nat) (d : Int),
      (∃ k : Nat, k ≤ fuel ∧
        getDay (if dir = "before" then d - (k : Int) else d + (k : Int)) ∉ l) →
      getDay (avoidLoop l dir fuel d) ∉ l := by
  intro fuel
  induction fuel with
  | zero =>
    intro d ⟨k, hk, hesc⟩
    interval_cases k
    rw [avoidLoop]
    revert hesc
    split <;> simp
  | succ m ih =>
    intro d ⟨k, hk, hesc⟩
    by_cases hmem : getDay d ∈ l
    · rw [avoidLoop, if_pos hmem]
      apply ih
      have hk0 : k ≠ 0 := by
        intro h0
        subst h0
        revert hesc
        split <;> simpa
      refine ⟨k - 1, by omega, ?_⟩
      revert hesc
      have hcast : ((k - 1 : Nat) : Int) = (k : Int) - 1 := by omega
      split <;> rw [hcast] <;> intro hesc <;> convert hesc using 2 <;> ring_nf
    · rw [avoidLoop, if_neg hmem]
      exact hmem

/-- Whenever some weekday is missing from the avoid set, a shift of at most
6 days in either direction reaches it. -/
theorem getDay_escape_exists (l : List Int) (dir : String) (d : Int)
    (w : Int) (hw0 : 0 ≤ w) (hw7 : w < 7) (hwl : w ∉ l) :
    ∃ k : Nat, k ≤ 6 ∧
      getDay (if dir = "before" then d - (k : Int) else d + (k : Int)) ∉ l := by
  by_cases hdir : dir = "before"
  · refine ⟨((getDay d - w) % 7).toNat, ?_, ?_⟩
    · have := Int.emod_nonneg (getDay d - w) (by norm_num : (7:Int) ≠ 0)
      have := Int.emod_lt_of_pos (getDay d - w) (by norm_num : (0:Int) < 7)
      omega
    · rw [if_pos hdir]
      have hgoal : getDay (d - (((getDay d - w) % 7).toNat : Int)) = w := by
        unfold getDay
        omega
      rw [hgoal]
      exact hwl
  · refine ⟨((w - getDay d) % 7).toNat, ?_, ?_⟩
    · have := Int.emod_nonneg (w - getDay d) (by norm_num : (7:Int) ≠ 0)
      have := Int.emod_lt_of_pos (w - getDay d) (by norm_num : (0:Int) < 7)
      omega
    · rw [if_neg hdir]
      have hgoal : getDay (d + (((w - getDay d) % 7).toNat : Int)) = w := by
        unfold getDay
        omega
      rw [hgoal]
      exact hwl

/-- C4: applyAvoidRules is total (it is a plain function of fuel 30); with
avoidDays null or empty it returns the candidate unchanged; it only ever
shifts one day at a time (earlier for 'before', later otherwise) for at most
30 shifts, returning the last computed date; and whenever at least one
weekday is outside avoidDays the returned date's weekday is not in
avoidDays. -/
theorem c4_applyAvoidRules (date : Int) (avoidDays : Option (List Int))
    (direction : String) :
    (avoidDays = none ∨ avoidDays = some [] →
      applyAvoidRules date avoidDays direction = date) ∧
    (∃ n : Nat, n ≤ 30 ∧
      applyAvoidRules date avoidDays direction =
        (if direction = "before" then date - n else date + n)) ∧
    (∀ l, avoidDays = some l → (∃ w : Int, 0 ≤ w ∧ w < 7 ∧ w ∉ l) →
      getDay (applyAvoidRules date avoidDays direction) ∉ l) := by
  refine ⟨?_, ?_, ?_⟩
  · intro h
    rcases h with h | h <;> subst h <;> simp [applyAvoidRules]
  · cases avoidDays with
    | none =>
      refine ⟨0, by omega, ?_⟩
      simp only [applyAvoidRules]
      split <;> simp
    | some l =>
      by_cases hlen : l.length = 0
      · refine ⟨0, by omega, ?_⟩
        simp only [applyAvoidRules, hlen, if_pos]
        split <;> simp
      · simp only [applyAvoidRules, hlen, if_neg, if_false]
        exact avoidLoop_shift l direction 30 date
  · intro l hl ⟨w, hw0, hw7, hwl⟩
    subst hl
    by_cases hlen : l.length = 0
    · have : l = [] := List.length_eq_zero.mp hlen
      subst this
      simp
    · simp only [applyAvoidRules, hlen, if_neg, if_false]
      apply avoidLoop_escape
      obtain ⟨k, hk, hesc⟩ := getDay_escape_exists l direction date w hw0 hw7 hwl
      exact ⟨k, by omega, hesc⟩

/-- C4 witness: avoiding Wednesday (3) from 2024-01-31 (a Wednesday)
backward lands outside the avoid set. -/
theorem c4_witness :
    getDay (applyAvoidRules 19753 (some [3]) "before") ∉ ([3] : List Int) :=
  (c4_applyAvoidRules 19753 (some [3]) "before").2.2 [3] rfl
    ⟨0, by norm_num, by norm_num, by decide⟩


/-- C5: deadlineScore returns 1 without a targetDate; otherwise, with
diff = targetDate - today in whole days, 6 for diff < 0, 5 for diff = 0,
4 for diff = 1, 3 for 1 < diff < n1, and 2 otherwise; the result is always
in 1..6; with n1 = 8 a target of today scores 5, yesterday 6, today+5 days
3 and today+10 days 2. -/
theorem c5_deadlineScore (task : Task) (n1 n2 : Int) (today : Int) :
    (task.targetDate = none → deadlineScore task n1 n2 today = 1) ∧
    (∀ t, task.targetDate = some t →
      ((t - today < 0 → deadlineScore task n1 n2 today = 6) ∧
       (t - today = 0 → deadlineScore task n1 n2 today = 5) ∧
       (t - today = 1 → deadlineScore task n1 n2 today = 4) ∧
       (1 < t - today → t - today < n1 → deadlineScore task n1 n2 today = 3) ∧
       (1 < t - today → n1 ≤ t - today → deadlineScore task n1 n2 today = 2))) ∧
    (1 ≤ deadlineScore task n1 n2 today ∧ deadlineScore task n1 n2 today ≤ 6) ∧
    (n1 = 8 → ∀ t, task.targetDate = some t →
      ((t = today → deadlineScore task n1 n2 today = 5) ∧
       (t = today - 1 → deadlineScore task n1 n2 today = 6) ∧
       (t = today + 5 → deadlineScore task n1 n2 today = 3) ∧
       (t = today + 10 → deadlineScore task n1 n2 today = 2))) := by
  cases htd : task.targetDate with
  | none =>
    refine ⟨fun _ => ?_, ?_, ?_, ?_⟩
    · simp [deadlineScore, htd]
    · intro t ht; cases ht
    · simp [deadlineScore, htd]
    · intro _ t ht; cases ht
  | some t0 =>
    have hds : deadlineScore task n1 n2 today =
        (if t0 - today < 0 then 6 else if t0 - today = 0 then 5
          else if t0 - today = 1 then 4 else if t0 - today < n1 then 3 else 2) := by
      simp [deadlineScore, htd]
    rw [hds]
    refine ⟨?_, ?_, ?_, ?_⟩
    · intro h; cases h
    · intro t ht
      obtain rfl : t0 = t := by injection ht
      refine ⟨?_, ?_, ?_, ?_, ?_⟩ <;> intros <;> (split_ifs <;> first | rfl | omega)
    · constructor <;> (split_ifs <;> first | rfl | omega)
    · intro hn1 t ht
      obtain rfl : t0 = t := by injection ht
      subst hn1
      refine ⟨?_, ?_, ?_, ?_⟩ <;> intros <;> (split_ifs <;> first | rfl | omega)

/-- C5 witness: targetDate = today scores 5 under n1 = 8. -/
theorem c5_witness : deadlineScore { targetDate := some 19723 } 8 3 19723 = 5 :=
  ((c5_deadlineScore { targetDate := some 19723 } 8 3 19723).2.2.2 rfl 19723 rfl).1 rfl

/-- C6: the n2 parameter is accepted but never consulted: deadlineScore,
totalScore and the sortSomedayTasks ordering are identical for any two
values of n2. -/
theorem c6_n2_unused (task : Task) (tasks : List Task) (n1 n2 n2' : Int)
    (today : Int) :
    deadlineScore task n1 n2 today = deadlineScore task n1 n2' today ∧
    totalScore task n1 n2 today = totalScore task n1 n2' today ∧
    sortSomedayTasks tasks n1 n2 today = sortSomedayTasks tasks n1 n2' today :=
  ⟨rfl, rfl, rfl⟩


/-- Sort key rank of the pinned flag: pinned tasks order strictly before
unpinned ones under the comparator. -/
def pinnedRank (t : Task) : Int := if t.pinned then 0 else 1

/-- The someday comparator is the non-strict order of the lexicographic key
(pinned rank, descending totalScore). -/
theorem somedayCmp_le_iff (n1 n2 today : Int) (a b : Task) :
    somedayCmp n1 n2 today a b ≤ 0 ↔
      (pinnedRank a < pinnedRank b ∨
        (pinnedRank a = pinnedRank b ∧
          totalScore b n1 n2 today ≤ totalScore a n1 n2 today)) := by
  unfold somedayCmp pinnedRank
  by_cases ha : a.pinned <;> by_cases hb : b.pinned <;>
    simp [ha, hb] <;> omega

/-- Inserting into a list commutes with filtering by a comparator-tie class:
the inserted element lands before every element of its own class already in
the list, appending it to the class's subsequence head. -/
theorem filter_orderedInsert (n1 n2 today : Int) (p : Task → Bool)
    (hp : ∀ x y, p x = true → p y = true → somedayCmp n1 n2 today x y ≤ 0)
    (x : Task) :
    ∀ l : List Task,
      (l.orderedInsert (fun a b => somedayCmp n1 n2 today a b ≤ 0) x).filter p =
        if p x then x :: l.filter p else l.filter p := by
  intro l
  induction l with
  | nil =>
    by_cases hx : p x <;> simp [List.orderedInsert, List.filter, hx]
  | cons y ys ih =>
    by_cases hle : somedayCmp n1 n2 today x y ≤ 0
    · rw [List.orderedInsert, if_pos hle]
      by_cases hx : p x <;> simp [List.filter_cons, hx]
    · rw [List.orderedInsert, if_neg hle]
      by_cases hx : p x
      · have hy : p y = false := by
          by_contra hyc
          exact hle (hp x y hx (by revert hyc; cases p y <;> simp))
        simp [List.filter_cons, hy, ih, hx]
      · simp only [List.filter_cons, ih]
        simp [hx]

/-- Stability of the stable sort: the subsequence of any comparator-tie
class is unchanged by sorting. -/
theorem filter_insertionSort (n1 n2 today : Int) (p : Task → Bool)
    (hp : ∀ x y, p x = true → p y = true → somedayCmp n1 n2 today x y ≤ 0) :
    ∀ l : List Task,
      (l.insertionSort (fun a b => somedayCmp n1 n2 today a b ≤ 0)).filter p =
        l.filter p := by
  intro l
  induction l with
  | nil => rfl
  | cons x xs ih =>
    rw [List.insertionSort, filter_orderedInsert n1 n2 today p hp x, ih]
    by_cases hx : p x <;> simp [List.filter_cons, hx]

/-- C7: sortSomedayTasks returns a permutation of its input (the input list
itself is untouched; the source sorts a copy) in which every pinned task
precedes every unpinned one, totalScore is non-increasing within equal
pinned status, ties (equal pinned flag and equal totalScore) keep their
relative input order, and concretely a pinned task with totalScore 1 sorts
before an unpinned task with the maximal deadline-driven score. -/
theorem c7_sortSomedayTasks (tasks : List Task) (n1 n2 today : Int) :
    (sortSomedayTasks tasks n1 n2 today).Perm tasks ∧
    (sortSomedayTasks tasks n1 n2 today).Pairwise
      (fun a b => (b.pinned = true → a.pinned = true) ∧
        (a.pinned = b.pinned → totalScore b n1 n2 today ≤ totalScore a n1 n2 today)) ∧
    (∀ (pn : Bool) (s : Int),
      (sortSomedayTasks tasks n1 n2 today).filter
          (fun t => t.pinned == pn && totalScore t n1 n2 today == s) =
        tasks.filter (fun t => t.pinned == pn && totalScore t n1 n2 today == s)) ∧
    sortSomedayTasks
        [{ id := "U", importance := "high", targetDate := some (today - 1) },
         { id := "P", pinned := true, importance := "low" }] n1 n2 today =
      [{ id := "P", pinned := true, importance := "low" },
       { id := "U", importance := "high", targetDate := some (today - 1) }] := by
  haveI htot : IsTotal Task (fun a b => somedayCmp n1 n2 today a b ≤ 0) :=
    ⟨fun a b => by
      rw [somedayCmp_le_iff, somedayCmp_le_iff]
      omega⟩
  haveI htr : IsTrans Task (fun a b => somedayCmp n1 n2 today a b ≤ 0) :=
    ⟨fun a b c hab hbc => by
      rw [somedayCmp_le_iff] at hab hbc ⊢
      omega⟩
  refine ⟨?_, ?_, ?_, ?_⟩
  · exact List.perm_insertionSort _ tasks
  · have hs := List.sorted_insertionSort
      (fun a b => somedayCmp n1 n2 today a b ≤ 0) tasks
    refine hs.imp ?_
    intro a b hab
    rw [somedayCmp_le_iff] at hab
    unfold pinnedRank at hab
    constructor
    · intro hbp
      by_cases hap : a.pinned
      · exact hap
      · simp [hap, hbp] at hab
    · intro hpe
      rw [hpe] at hab
      omega
  · intro pn s
    apply filter_insertionSort
    intro x y hx hy
    simp only [Bool.and_eq_true, beq_iff_eq] at hx hy
    simp [somedayCmp, hx.1, hy.1, hx.2, hy.2]
  · rfl

/-- C7 witness. -/
theorem c7_witness :
    (sortSomedayTasks [] 1 2 3).Perm [] :=
  (c7_sortSomedayTasks [] 1 2 3).1


/-- Concrete bookings for the C8 example: A at 09:00 for 60 minutes, B at
10:00 for 30, B2 at 09:30 for 30. -/
def bkA : Task := { id := "A", scheduledTime := some "09:00", duration := 60 }
def bkB : Task := { id := "B", scheduledTime := some "10:00", duration := 30 }
def bkB2 : Task := { id := "B2", scheduledTime := some "09:30", duration := 30 }

/-- C8: isBooking is true exactly when both tasks have a non-null
scheduledTime and their half-open minute intervals [start, start+duration)
intersect (startA < endB and startB < endA); a null scheduledTime on either
side yields false; back-to-back A/B do not overlap while A/B2 do. -/
theorem c8_isBooking (a b : Task) :
    (isBooking a b = true ↔
      ∃ ta tb, a.scheduledTime = some ta ∧ b.scheduledTime = some tb ∧
        timeToMin ta < timeToMin tb + b.duration ∧
        timeToMin tb < timeToMin ta + a.duration) ∧
    (a.scheduledTime = none ∨ b.scheduledTime = none → isBooking a b = false) ∧
    isBooking bkA bkB = false ∧ isBooking bkA bkB2 = true := by
  refine ⟨?_, ?_, by decide, by decide⟩
  · cases hta : a.scheduledTime with
    | none =>
      simp only [isBooking, hta]
      constructor
      · intro h; cases h
      · rintro ⟨ta, tb, hta', _⟩; cases hta'
    | some ta =>
      cases htb : b.scheduledTime with
      | none =>
        simp only [isBooking, hta, htb]
        constructor
        · intro h; cases h
        · rintro ⟨ta', tb, _, htb', _⟩; cases htb'
      | some tb =>
        simp only [isBooking, hta, htb]
        constructor
        · intro h
          simp only [Bool.and_eq_true, decide_eq_true_eq] at h
          exact ⟨ta, tb, rfl, rfl, h.1, h.2⟩
        · rintro ⟨ta', tb', hta', htb', h1, h2⟩
          obtain rfl : ta = ta' := by injection hta'
          obtain rfl : tb = tb' := by injection htb'
          simp only [Bool.and_eq_true, decide_eq_true_eq]
          exact ⟨h1, h2⟩
  · intro h
    rcases h with h | h <;> simp [isBooking, h] <;> cases a.scheduledTime <;> rfl

/-- C8 witness. -/
theorem c8_witness : isBooking bkA bkB = false ∧ isBooking bkA bkB2 = true :=
  ⟨(c8_isBooking bkA bkB).2.2.1, (c8_isBooking bkA bkB2).2.2.2⟩

/-- Concrete timeline tasks for C9: 09:00 and 10:00, 30 minutes each. -/
def tlA : Task := { id := "A", scheduledTime := some "09:00", duration := 30 }
def tlB : Task := { id := "B", scheduledTime := some "10:00", duration := 30 }

/-- C9 counterexample: the claim expects the gap entry's time string to be
"09:30", but minToTime zero-pads only the minutes, not the hours, so the
emitted entry carries "9:30" and the claimed timeline value is not the
computed one. -/
theorem c9_hour_pad_cex :
    buildTimeline [tlA, tlB] ≠
      [.task tlA, .empty "09:30" 30, .task tlB] := by
  decide

/-- C9 amended: buildTimeline emits one task entry per input task in order;
between consecutive tasks exactly one empty entry appears when the gap is
positive, carrying the previous task's end minute rendered by minToTime
(minutes zero-padded, hours not) and the gap duration; nothing is emitted
before the first or after the last task and the empty input gives an empty
timeline; the 09:00/10:00 example yields the empty entry ("9:30", 30). -/
theorem c9_buildTimeline :
    buildTimeline ([] : List Task) = [] ∧
    (∀ a, buildTimeline [a] = [.task a]) ∧
    (∀ a b rest, buildTimeline (a :: b :: rest) =
      .task a ::
        ((if schedMin b > schedMin a + a.duration then
            [.empty (minToTime (schedMin a + a.duration))
              (schedMin b - (schedMin a + a.duration))]
          else []) ++ buildTimeline (b :: rest))) ∧
    buildTimeline [tlA, tlB] = [.task tlA, .empty "9:30" 30, .task tlB] := by
  refine ⟨rfl, fun a => rfl, fun a b rest => rfl, by decide⟩


/-- formatDate output always contains its two dashes, so it is never the
empty string. -/
theorem formatDate_ne_empty (z : Int) : formatDate z ≠ "" := by
  simp only [formatDate]
  intro h
  have hl := congrArg String.length h
  simp only [String.length_append] at hl
  have h1 : ("-" : String).length = 1 := rfl
  have h0 : ("" : String).length = 0 := rfl
  omega

/-- Every date visited by a day-walking loop is at or after the starting
day. -/
theorem walkDates_lb (p : Int → Bool) (e : Int) :
    ∀ (fuel : Nat) (d x : Int), x ∈ walkDates p e fuel d → d ≤ x := by
  intro fuel
  induction fuel with
  | zero => intro d x hx; cases hx
  | succ n ih =>
    intro d x hx
    rw [walkDates] at hx
    by_cases hd : d ≤ e
    · rw [if_pos hd] at hx
      rcases List.mem_append.mp hx with hx | hx
      · by_cases hp : p d
        · rw [if_pos hp] at hx
          simp only [List.mem_singleton] at hx
          omega
        · rw [if_neg hp] at hx
          cases hx
      · have := ih (d + 1) x hx
        omega
    · rw [if_neg hd] at hx
      cases hx

/-- The day-walking loops visit days in strictly increasing order. -/
theorem walkDates_pairwise (p : Int → Bool) (e : Int) :
    ∀ (fuel : Nat) (d : Int), (walkDates p e fuel d).Pairwise (· < ·) := by
  intro fuel
  induction fuel with
  | zero => intro d; exact List.Pairwise.nil
  | succ n ih =>
    intro d
    rw [walkDates]
    by_cases hd : d ≤ e
    · rw [if_pos hd]
      by_cases hp : p d
      · rw [if_pos hp]
        refine List.Pairwise.cons ?_ (ih (d + 1))
        intro x hx
        have := walkDates_lb p e n (d + 1) x hx
        omega
      · rw [if_neg hp]
        simpa using ih (d + 1)
    · rw [if_neg hd]
      exact List.Pairwise.nil

/-- When no override exception rewrites scheduledDate, the scheduledDate of
each emission at occurrence date od is formatDate od, and deleted occurrences
contribute nothing. -/
theorem map_scheduledDate_flatMap (task : Task) (E : List (String × ExceptionValue))
    (hov : ∀ k ov, E.lookup k = some (.override ov) → ov.scheduledDate = none) :
    ∀ dates : List Int,
      (dates.flatMap (addInstance task E)).map (·.scheduledDate) =
        (dates.filter
            (fun od => decide (E.lookup (formatDate od) ≠ some ExceptionValue.deleted))).map
          (fun od => some (formatDate od)) := by
  intro dates
  induction dates with
  | nil => rfl
  | cons od rest ih =>
    rw [List.flatMap_cons, List.map_append, ih, List.filter_cons]
    cases hl : E.lookup (formatDate od) with
    | none =>
      simp only [addInstance, hl]
      simp [baseInstance, hl]
    | some v =>
      cases v with
      | deleted =>
        simp only [addInstance, hl]
        simp [hl]
      | override ov =>
        simp only [addInstance, hl]
        have := hov (formatDate od) ov hl
        simp [applyOverride, baseInstance, this, hl]

/-- C10 counterexample template: daily rule whose 2024-01-02 occurrence has
an override exception rewriting scheduledDate to the empty string. -/
def c10Task : Task :=
  { id := "T"
    recurrence := some
      { type := "daily"
        exceptions := [("2024-01-02", .override { scheduledDate := some (some "") })] } }

/-- C10 counterexample: an override exception may rewrite scheduledDate, so
the emitted scheduledDates of a daily rule need not be (formatted) strictly
ascending occurrence dates: over [2024-01-01, 2024-01-02] the template emits
scheduledDates [2024-01-01, ""], and no strictly increasing day-number list
formats to that. -/
theorem c10_override_scheduledDate_cex :
    ¬ ∃ ds : List Int, ds.Pairwise (· < ·) ∧
      (expandRecurringTasks [c10Task] 19723 19724).map (·.scheduledDate) =
        ds.map (fun k => some (formatDate k)) := by
  rintro ⟨ds, _, hmap⟩
  have hconc : (expandRecurringTasks [c10Task] 19723 19724).map (·.scheduledDate) =
      [some "2024-01-01", some ""] := by decide
  rw [hconc] at hmap
  cases ds with
  | nil => simp at hmap
  | cons k0 tl =>
    cases tl with
    | nil => simp at hmap
    | cons k1 tl2 =>
      cases tl2 with
      | cons k2 tl3 => simp at hmap
      | nil =>
        simp only [List.map_cons, List.map_nil, List.cons.injEq] at hmap
        have h2 : some "" = some (formatDate k1) := hmap.2.1
        have he : formatDate k1 = "" := by
          injection h2 with h
          exact h.symm
        exact formatDate_ne_empty k1 he

/-- C10 amended: each task's expansion occupies one consecutive block of the
expandRecurringTasks output (in input order), and for a daily or weekly rule
whose override exceptions never set scheduledDate, the emitted instances'
scheduledDates are a strictly increasing sequence of formatted day numbers
(the loops walk the window upward one day at a time), hence date-sorted
without further sorting. -/
theorem c10_daily_weekly_sorted (task : Task) (r : Recurrence) (s e : Int)
    (hrec : task.recurrence = some r) (hty : r.type = "daily" ∨ r.type = "weekly")
    (hov : ∀ k ov, r.exceptions.lookup k = some (.override ov) → ov.scheduledDate = none) :
    (∀ pre post, expandRecurringTasks (pre ++ task :: post) s e =
      expandRecurringTasks pre s e ++ expandOne s e task ++
        expandRecurringTasks post s e) ∧
    ∃ ds : List Int, ds.Pairwise (· < ·) ∧
      (expandOne s e task).map (·.scheduledDate) =
        ds.map (fun k => some (formatDate k)) := by
  constructor
  · intro pre post
    unfold expandRecurringTasks
    rw [List.flatMap_append, List.flatMap_cons, List.append_assoc]
  · have hne : r.type ≠ "none" := by
      rcases hty with h | h <;> rw [h] <;> decide
    rw [expandOne_eq_flatMap task r s e hrec hne]
    refine ⟨(occDates r s e).filter
      (fun od => decide (r.exceptions.lookup (formatDate od) ≠ some ExceptionValue.deleted)),
      ?_, ?_⟩
    · refine List.Pairwise.sublist (List.filter_sublist _) ?_
      have hpw : (occDates r s e).Pairwise (· < ·) := by
        unfold occDates
        rcases hty with h | h
        · rw [h, if_neg (by decide : ¬("daily" = "none"))]
          by_cases hlt : effectiveEnd r e < s
          · rw [if_pos hlt]
            exact List.Pairwise.nil
          · rw [if_neg hlt, if_pos rfl]
            exact walkDates_pairwise _ _ _ _
        · rw [h, if_neg (by decide : ¬("weekly" = "none"))]
          by_cases hlt : effectiveEnd r e < s
          · rw [if_pos hlt]
            exact List.Pairwise.nil
          · rw [if_neg hlt, if_neg (by decide : ¬("weekly" = "daily")), if_pos rfl]
            exact walkDates_pairwise _ _ _ _
      exact hpw
    · exact map_scheduledDate_flatMap task r.exceptions hov (occDates r s e)

/-- C10 witness: a two-day daily expansion is emitted in ascending date
order. -/
theorem c10_witness :
    ∃ ds : List Int, ds.Pairwise (· < ·) ∧
      (expandOne 19723 19724
          { id := "D", recurrence := some { type := "daily" } }).map (·.scheduledDate) =
        ds.map (fun k => some (formatDate k)) :=
  (c10_daily_weekly_sorted { id := "D", recurrence := some { type := "daily" } }
    { type := "daily" } 19723 19724 rfl (Or.inl rfl)
    (by intro k ov h; cases h)).2

end Takt
